import Mathlib

/-!
Verification of the eyewitness2 web-reconnaissance pipeline.

This file gives a shallow embedding of the Python sources
(`main.py`, `modules/signature_analyzer.py`, `modules/headers_analyzer.py`,
`modules/browser.py`, `modules/reporter.py`) and proves properties of the
embedded definitions.

Python strings are modelled as `List Char` so that every operation used by
the source (split, strip, lower, substring membership, startswith) is a
structurally recursive, kernel-computable function.  External effects
(browser navigation, network fetches, the filesystem) are modelled as
explicit inputs: each fallible step of the per-target pipeline is an
`Except` value describing that step's outcome, and screenshot files are an
oracle from path to file state.
-/

namespace Eyewitness2

/-- Python strings modelled as character lists. -/
abbrev PyStr := List Char

/-- Convenience injection of a Lean string literal into the model. -/
def str (s : String) : PyStr := s.data

/-! ### Python string primitives used by the source -/

/-- Python `s.split(sep)` for a single-character separator (the source only
splits on the one-character separators `'|'` and `';'`).  Like Python's
`split`, it never returns an empty list: `"".split('|') == ['']`. -/
def splitOnChar (sep : Char) : PyStr → List PyStr
  | [] => [[]]
  | c :: rest =>
    let r := splitOnChar sep rest
    if c = sep then [] :: r
    else
      match r with
      | [] => [[c]]
      | h :: t => (c :: h) :: t

/-- ASCII whitespace recognised by Python `str.strip()`. -/
def pyIsSpace (c : Char) : Bool :=
  c = ' ' || c = '\t' || c = '\n' || c = '\r' || c = '\x0b' || c = '\x0c'

/-- Python `s.strip()`. -/
def pyStrip (s : PyStr) : PyStr :=
  ((s.dropWhile pyIsSpace).reverse.dropWhile pyIsSpace).reverse

/-- Python `s.lower()` (ASCII case folding, which is all the rule data and
header names exercise). -/
def pyLower (s : PyStr) : PyStr := s.map Char.toLower

/-- Python `needle in haystack` (contiguous substring membership). -/
def containsSeq (haystack needle : PyStr) : Bool :=
  decide (needle <:+: haystack)

/-- Python `line.startswith('#')`. -/
def startsWithHash : PyStr → Bool
  | [] => false
  | c :: _ => c = '#'

/-! ### modules/signature_analyzer.py -/

/-- `SignatureAnalyzer._load_signatures_and_categories`: the list
comprehension `[line.strip() for line in f if line.strip() and not
line.startswith('#')]` applied to the raw lines of a rule file.  Note that
the only conditions are non-blankness and the `#`-comment check; no
field-count validation happens here. -/
def loadRuleLines (lines : List PyStr) : List PyStr :=
  (lines.filter (fun l => !(pyStrip l).isEmpty && !startsWithHash l)).map pyStrip

/-- One conjunct of the matching test in `SignatureAnalyzer.analyze`:
`pattern.lower() in content.lower()`. -/
def patternMatch (content pattern : PyStr) : Bool :=
  containsSeq (pyLower content) (pyLower pattern)

/-- `all(pattern.lower() in content.lower() for pattern in patterns)`. -/
def ruleMatches (content : PyStr) (patterns : List PyStr) : Bool :=
  patterns.all (patternMatch content)

/-- One entry of `result["identified_applications"]`. -/
structure App where
  name : PyStr
  patterns : List PyStr
  credentials : PyStr
deriving DecidableEq

/-- The dictionary built by `SignatureAnalyzer.analyze`. -/
structure SigResult where
  identified_applications : List App
  default_credentials : List PyStr
  category : Option PyStr
deriving DecidableEq

/-- The result dictionary as initialised at the top of `analyze` (and as
returned when reading the page content or title raises). -/
def emptySigResult : SigResult :=
  { identified_applications := [], default_credentials := [], category := none }

/-- The application-name extraction `re.match(r'\((.*?)\)(.*)', cred_info)`:
the regex matches exactly when `cred_info` starts with `'('` and a `')'`
follows with no newline before it (`.` does not cross lines); group 1 is the
text up to the first `')'`, which the source strips.  Otherwise the first
pattern is used as the name (`patterns[0]`; the Python split always yields at
least one element, so the default is unreachable on source-shaped input). -/
def extractAppName (credInfo : PyStr) (patterns : List PyStr) : PyStr :=
  match credInfo with
  | '(' :: rest =>
    let before := rest.takeWhile (fun c => c ≠ ')')
    if rest.contains ')' && !before.contains '\n' then pyStrip before
    else patterns.headD []
  | _ => patterns.headD []

/-- The body of the per-signature loop in `SignatureAnalyzer.analyze`:
split the line on `'|'`, skip it when fewer than two fields result,
otherwise test the conjunctive match and accumulate the application entry
and (deduplicated) credential text. -/
def processSig (content : PyStr) (acc : SigResult) (sig : PyStr) : SigResult :=
  match splitOnChar '|' sig with
  | p0 :: p1 :: _ =>
    let patterns := splitOnChar ';' p0
    let credInfo := pyStrip p1
    if ruleMatches content patterns then
      { acc with
        identified_applications :=
          acc.identified_applications ++
            [{ name := extractAppName credInfo patterns
               patterns := patterns
               credentials := credInfo }]
        default_credentials :=
          if acc.default_credentials.contains credInfo then acc.default_credentials
          else acc.default_credentials ++ [credInfo] }
    else acc
  | _ => acc

/-- The per-category loop in `SignatureAnalyzer.analyze`: first fully
matching well-formed rule wins (`break`), lines with fewer than two
`|`-fields are skipped. -/
def categoryOfRules (content : PyStr) : List PyStr → Option PyStr
  | [] => none
  | cat :: rest =>
    match splitOnChar '|' cat with
    | p0 :: p1 :: _ =>
      if ruleMatches content (splitOnChar ';' p0) then some (pyStrip p1)
      else categoryOfRules content rest
    | _ => categoryOfRules content rest

/-- The title-based fallback chain of `SignatureAnalyze.analyze`
(case-sensitive substring tests on the page title, in source order). -/
def fallbackCategory (title : PyStr) : Option PyStr :=
  if containsSeq title (str "403 Forbidden") || containsSeq title (str "401 Unauthorized") then
    some (str "unauth")
  else if containsSeq title (str "Index of /") || containsSeq title (str "Directory Listing For /")
      || containsSeq title (str "Directory of /") then
    some (str "dirlist")
  else if containsSeq title (str "404 Not Found") then
    some (str "notfound")
  else none

/-- Python truthiness test `not result["category"]`: true for `None` and for
the empty string. -/
def catFalsy : Option PyStr → Bool
  | none => true
  | some s => s.isEmpty

/-- `SignatureAnalyzer.analyze`, given the loaded rule lines and the page
content and title.  (In the source, reading content or title can raise, in
which case the surrounding handler returns the empty result; that path is
modelled in `analyzeStage` below.  The per-rule exception handlers are
unreachable in the pure model.) -/
def analyze (sigLines catLines : List PyStr) (content title : PyStr) : SigResult :=
  let r1 := sigLines.foldl (processSig content) emptySigResult
  let r2 := { r1 with category := categoryOfRules content catLines }
  if catFalsy r2.category && !title.isEmpty then
    match fallbackCategory title with
    | some c => { r2 with category := some c }
    | none => r2
  else r2

/-! ### modules/headers_analyzer.py -/

/-- The fixed list `security_headers` in `HeadersAnalyzer.analyze`. -/
def securityHeaderNames : List PyStr :=
  [str "Content-Security-Policy",
   str "X-XSS-Protection",
   str "X-Content-Type-Options",
   str "X-Frame-Options",
   str "Strict-Transport-Security",
   str "Referrer-Policy",
   str "Feature-Policy",
   str "Permissions-Policy"]

/-- The per-name lookup in `HeadersAnalyzer.analyze`: a case-insensitive
scan of the response headers; the first matching key's value is used
(response headers are a dict, so exact keys are distinct and
`headers[actual_key]` is exactly the first case-insensitive match found by
`next(...)`), and `"Not set"` is recorded when no key matches. -/
def lookupHeader (headers : List (PyStr × PyStr)) (name : PyStr) : PyStr :=
  match headers.find? (fun kv => pyLower kv.1 == pyLower name) with
  | some kv => kv.2
  | none => str "Not set"

/-- The `result["security_headers"]` mapping built by
`HeadersAnalyzer.analyze`: one entry for each of the eight fixed names. -/
def securityHeadersOf (headers : List (PyStr × PyStr)) : List (PyStr × PyStr) :=
  securityHeaderNames.map (fun name => (name, lookupHeader headers name))

/-- The dictionary returned by `HeadersAnalyzer.analyze` (`metadata` is
flattened into the `title` and `meta_tags` fields). -/
structure HeadersData where
  http_headers : List (PyStr × PyStr)
  security_headers : List (PyStr × PyStr)
  title : PyStr
  meta_tags : List (PyStr × PyStr)
deriving DecidableEq

/-- The pure part of `HeadersAnalyzer.analyze`, given the outcome of the
raw fetch (`page.request.fetch`), `page.title()` and the meta-tag script. -/
def headersAnalyze (rawHeaders : List (PyStr × PyStr)) (title : PyStr)
    (metaTags : List (PyStr × PyStr)) : HeadersData :=
  { http_headers := rawHeaders
    security_headers := securityHeadersOf rawHeaders
    title := title
    meta_tags := metaTags }

/-! ### main.py: the per-target scan -/

/-- The `results` dictionary built by `process_url` (`screenshot_data` is
the key that `ReportGenerator.generate_reports` later assigns into it; it is
never set by `process_url` itself, which `none` models). -/
structure ScanResult where
  url : PyStr
  timestamp : PyStr
  headers : Option HeadersData := none
  signatures : Option SigResult := none
  screenshot : Option PyStr := none
  screenshot_data : Option (Option PyStr) := none
  error : Option PyStr := none
deriving DecidableEq

/-- One target's external behaviour: the URL and timestamp, the rule lines
loaded by the `SignatureAnalyzer` constructor, the screenshot path derived
from the URL, and the outcome of every effectful step of `process_url`
(each either succeeds with its value or raises with a message). -/
structure TargetEnv where
  url : PyStr
  timestamp : PyStr
  sigLines : List PyStr
  catLines : List PyStr
  screenshotPath : PyStr
  /-- `browser_handler.navigate_to_url(url)` as observed by `process_url`. -/
  navigate : Except PyStr Unit
  /-- `headers_analyzer.analyze(page, url)`: raw response headers, page
  title and meta tags on success. -/
  headerFetch : Except PyStr (List (PyStr × PyStr) × PyStr × List (PyStr × PyStr))
  /-- `page.content()` and `page.title()` as read inside
  `SignatureAnalyzer.analyze` (its own handler catches a failure here). -/
  pageRead : Except PyStr (PyStr × PyStr)
  /-- `screenshot_taker.take_screenshot(page, screenshot_path)`. -/
  screenshotStep : Except PyStr Unit
  /-- the `json.dump` of the sidecar record. -/
  sidecarStep : Except PyStr Unit
  /-- the final `browser_handler.close()` on the success path. -/
  closeStep : Except PyStr Unit

/-- The signature stage as seen from `process_url`: the body of
`SignatureAnalyzer.analyze` is wrapped in its own `try`/`except` that
returns the freshly initialised result when reading the page raises, so the
stage never raises at the `process_url` boundary. -/
def analyzeStage (sigLines catLines : List PyStr)
    (pageRead : Except PyStr (PyStr × PyStr)) : SigResult :=
  match pageRead with
  | .error _ => emptySigResult
  | .ok (content, title) => analyze sigLines catLines content title

/-- `process_url`: runs the pipeline steps in source order inside one
`try`; the `except` branch records the message of the first step that
raises into `results["error"]` and returns the dictionary as populated so
far. -/
def processUrl (e : TargetEnv) : ScanResult :=
  let r0 : ScanResult := { url := e.url, timestamp := e.timestamp }
  match e.navigate with
  | .error msg => { r0 with error := some msg }
  | .ok _ =>
    match e.headerFetch with
    | .error msg => { r0 with error := some msg }
    | .ok (raw, t, m) =>
      let r1 := { r0 with headers := some (headersAnalyze raw t m) }
      let r2 := { r1 with
        signatures := some (analyzeStage e.sigLines e.catLines e.pageRead) }
      match e.screenshotStep with
      | .error msg => { r2 with error := some msg }
      | .ok _ =>
        let r3 := { r2 with screenshot := some e.screenshotPath }
        match e.sidecarStep with
        | .error msg => { r3 with error := some msg }
        | .ok _ =>
          match e.closeStep with
          | .error msg => { r3 with error := some msg }
          | .ok _ => r3

/-- Whether `browser_handler.close()` is invoked on the exit path that
`process_url` takes in environment `e`.  On a navigation failure,
`navigate_to_url`'s own handler awaits `self.close()` before re-raising.
On the all-steps-succeed path, `process_url` awaits `close()` before
returning.  When a step after navigation raises, control jumps to
`process_url`'s `except` branch, which returns without calling `close()`.
(A failure of `close()` itself still counts as an invocation.) -/
def processUrlClosed (e : TargetEnv) : Bool :=
  match e.navigate with
  | .error _ => true
  | .ok _ =>
    match e.headerFetch with
    | .error _ => false
    | .ok _ =>
      match e.screenshotStep with
      | .error _ => false
      | .ok _ =>
        match e.sidecarStep with
        | .error _ => false
        | .ok _ => true

/-- Truth of an `Except`-modelled step having succeeded. -/
def stepOk {α : Type} : Except PyStr α → Prop
  | .ok _ => True
  | .error _ => False

/-- `main`'s fan-out/fan-in: `asyncio.gather(*tasks,
return_exceptions=True)` over `[process_url(url, output_dir) for url in
args.urls]` returns the awaited results in the order the tasks were listed,
which is the input URL order. -/
def runBatch (envs : List TargetEnv) : List ScanResult :=
  envs.map processUrl

/-! ### modules/reporter.py -/

/-- One element of the list that `asyncio.gather(..., return_exceptions=True)`
hands to `ReportGenerator.generate_reports`: either an exception object or a
per-target result dictionary. -/
inductive GatherItem where
  | exc (msg : PyStr)
  | ok (r : ScanResult)
deriving DecidableEq

/-- State of a screenshot file as observed by `generate_reports`: the path
does not exist, opening/reading it raises, or reading succeeds and base64
encoding produces the given text. -/
inductive FileState where
  | absent
  | unreadable
  | readable (encoded : PyStr)

/-- The filesystem oracle for screenshot files. -/
def FS := PyStr → FileState

/-- The screenshot-embedding block of `generate_reports`: when the result
has a `screenshot` path and the file exists, the result dictionary is
assigned a `screenshot_data` key — the encoded bytes, or `None` when the
read raises.  Results without the key, or whose file is absent, are left
untouched. -/
def mutateResult (fs : FS) (r : ScanResult) : ScanResult :=
  match r.screenshot with
  | none => r
  | some path =>
    match fs path with
    | .absent => r
    | .unreadable => { r with screenshot_data := some none }
    | .readable data => { r with screenshot_data := some (some data) }

/-- The post-call state of the shared results list: `generate_reports`
mutates the non-exception dictionaries in place via `mutateResult`. -/
def processedResults (fs : FS) (items : List GatherItem) : List GatherItem :=
  items.map fun it =>
    match it with
    | .exc m => .exc m
    | .ok r => .ok (mutateResult fs r)

/-- The `report_stats` record built for one non-exception result.
`category` mirrors `result.get("signatures", {}).get("category", "Unknown")`:
when the `signatures` key is absent the default string is used, otherwise
the stored value (which may be Python `None`, modelled `none`). -/
structure ReportStats where
  url : PyStr
  timestamp : PyStr
  report_url : PyStr
  title : PyStr
  category : Option PyStr
  apps_count : Nat
  has_default_creds : Bool
  screenshot : Option PyStr
  error : Option PyStr
deriving DecidableEq

/-- The identified applications of a result, `result.get("signatures",
{}).get("identified_applications", [])`. -/
def appsOf (r : ScanResult) : List App :=
  match r.signatures with
  | some sg => sg.identified_applications
  | none => []

/-- Builds `report_stats` for the result at index `i`. -/
def mkReportStats (i : Nat) (r : ScanResult) : ReportStats :=
  { url := r.url
    timestamp := r.timestamp
    report_url := str ("report_" ++ toString i ++ ".html")
    title :=
      match r.headers with
      | some h => h.title
      | none => str "Unknown"
    category :=
      match r.signatures with
      | some sg => sg.category
      | none => some (str "Unknown")
    apps_count := (appsOf r).length
    has_default_creds :=
      match r.signatures with
      | some sg => decide (0 < sg.default_credentials.length)
      | none => false
    screenshot := r.screenshot
    error := r.error }

/-- The counter key `report_stats["category"] or "Unknown"` (Python `or`
replaces both `None` and the empty string). -/
def categoryKey : Option PyStr → PyStr
  | none => str "Unknown"
  | some c => if c.isEmpty then str "Unknown" else c

/-- The `stats` dictionary of `generate_reports`. -/
structure Stats where
  total_urls : Nat
  errors : Nat
  categories : List (PyStr × Nat)
  apps_identified : List (PyStr × Nat)
  default_creds_found : Nat
  reports : List ReportStats

/-- Incrementing a counter dictionary: initialise the key to 0 when absent,
then add one. -/
def bump (m : List (PyStr × Nat)) (k : PyStr) : List (PyStr × Nat) :=
  if m.any (fun kv => kv.1 == k) then
    m.map (fun kv => if kv.1 == k then (kv.1, kv.2 + 1) else kv)
  else m ++ [(k, 1)]

/-- One iteration of the `for i, result in enumerate(results)` loop of
`generate_reports`: an exception only increments the error counter and is
skipped; any other element is (possibly) mutated with its screenshot data
and then contributes exactly one report record and its counter updates. -/
def statStep (fs : FS) (acc : Stats) (idxItem : Nat × GatherItem) : Stats :=
  match idxItem.2 with
  | .exc _ => { acc with errors := acc.errors + 1 }
  | .ok r0 =>
    let r := mutateResult fs r0
    let rs := mkReportStats idxItem.1 r
    { acc with
      reports := acc.reports ++ [rs]
      categories := bump acc.categories (categoryKey rs.category)
      apps_identified := (appsOf r).foldl (fun m a => bump m a.name) acc.apps_identified
      default_creds_found :=
        acc.default_creds_found + (if rs.has_default_creds then 1 else 0) }

/-- The `stats` dictionary as initialised before the loop. -/
def initStats (n : Nat) : Stats :=
  { total_urls := n, errors := 0, categories := [], apps_identified := [],
    default_creds_found := 0, reports := [] }

/-- The aggregate statistics computed by `ReportGenerator.generate_reports`
(the HTML rendering it feeds is out of scope). -/
def generateStats (fs : FS) (items : List GatherItem) : Stats :=
  items.enum.foldl (statStep fs) (initStats items.length)

/-! ### Derived and comparison definitions used by the theorems -/

/-- The credential texts (`sig_parts[1].strip()`) of the well-formed, fully
matching signature lines, in file order. -/
def matchingCreds (content : PyStr) : List PyStr → List PyStr
  | [] => []
  | sig :: rest =>
    match splitOnChar '|' sig with
    | p0 :: p1 :: _ =>
      if ruleMatches content (splitOnChar ';' p0) then
        pyStrip p1 :: matchingCreds content rest
      else matchingCreds content rest
    | _ => matchingCreds content rest

/-- Python's guarded append `if cred_info not in creds: creds.append(cred_info)`
(case-sensitive exact-string membership). -/
def pyDedupInsert (l : List PyStr) (c : PyStr) : List PyStr :=
  if l.contains c then l else l ++ [c]

/-- The amended C7 claim, written from its own words for comparison with
`analyze`: the fallback heuristics are applied exactly when the category
left by the rule scan is absent *or the empty string* and the title is
non-empty, with precedence `unauth` over `dirlist` over `notfound`, and
the rule-scan category is kept otherwise. -/
def categoryAmendedSpec (catLines : List PyStr) (content title : PyStr) : Option PyStr :=
  let ruleCat := categoryOfRules content catLines
  if (ruleCat = none ∨ ruleCat = some []) ∧ title ≠ [] then
    if str "403 Forbidden" <:+: title ∨ str "401 Unauthorized" <:+: title then
      some (str "unauth")
    else if str "Index of /" <:+: title ∨ str "Directory Listing For /" <:+: title
        ∨ str "Directory of /" <:+: title then
      some (str "dirlist")
    else if str "404 Not Found" <:+: title then
      some (str "notfound")
    else ruleCat
  else ruleCat

/-- Whether a gathered element is an exception object
(`isinstance(result, Exception)`). -/
def isExcItem : GatherItem → Bool
  | .exc _ => true
  | .ok _ => false

/-- Whether a gathered element is a per-target result dictionary. -/
def isOkItem : GatherItem → Bool
  | .exc _ => false
  | .ok _ => true

/-! ### Concrete scenarios used as witnesses and counterexamples -/

/-- A target whose navigation fails (e.g. a timeout inside `page.goto`). -/
def envNavFail : TargetEnv :=
  { url := str "http://a", timestamp := str "t", sigLines := [], catLines := [],
    screenshotPath := str "shot.png",
    navigate := .error (str "timeout"),
    headerFetch := .ok ([], [], []), pageRead := .ok ([], []),
    screenshotStep := .ok (), sidecarStep := .ok (), closeStep := .ok () }

/-- A target that navigates fine but whose raw header fetch raises. -/
def envHeaderFail : TargetEnv :=
  { url := str "http://a", timestamp := str "t", sigLines := [], catLines := [],
    screenshotPath := str "shot.png",
    navigate := .ok (),
    headerFetch := .error (str "connection reset"),
    pageRead := .ok ([], []),
    screenshotStep := .ok (), sidecarStep := .ok (), closeStep := .ok () }

/-- A target where everything succeeds except reading the page content or
title inside `SignatureAnalyzer.analyze`. -/
def envContentFail : TargetEnv :=
  { url := str "http://a", timestamp := str "t", sigLines := [], catLines := [],
    screenshotPath := str "shot.png",
    navigate := .ok (),
    headerFetch := .ok ([], [], []),
    pageRead := .error (str "page crashed"),
    screenshotStep := .ok (), sidecarStep := .ok (), closeStep := .ok () }

/-- A fully successful target scan. -/
def envAllOk : TargetEnv :=
  { url := str "http://a", timestamp := str "t", sigLines := [], catLines := [],
    screenshotPath := str "shot.png",
    navigate := .ok (),
    headerFetch := .ok ([(str "Server", str "nginx")], str "Home", []),
    pageRead := .ok (str "hello", str "Home"),
    screenshotStep := .ok (), sidecarStep := .ok (), closeStep := .ok () }

/-- A scan result holding a screenshot path. -/
def resultWithShot : ScanResult :=
  { url := str "http://a", timestamp := str "t",
    screenshot := some (str "shot.png") }

/-- A scan result without a screenshot path. -/
def resultNoShot : ScanResult :=
  { url := str "http://b", timestamp := str "t" }

/-- A filesystem in which exactly `shot.png` exists and reads (base64) as
`QUJD`. -/
def fsOneShot : FS :=
  fun p => if p = str "shot.png" then .readable (str "QUJD") else .absent

/-- A single-pair response-header set for the witness scenarios. -/
def headersLowerXFO : List (PyStr × PyStr) := [(str "x-frame-options", str "DENY")]

/-! ## Helper lemmas -/

/-- The signature loop never touches the category field. -/
lemma foldl_processSig_category (content : PyStr) (sigs : List PyStr) (acc : SigResult) :
    (sigs.foldl (processSig content) acc).category = acc.category := by
  induction sigs generalizing acc with
  | nil => rfl
  | cons s rest ih =>
    rw [List.foldl_cons, ih]
    unfold processSig
    rcases hs : splitOnChar '|' s with _ | ⟨p0, _ | ⟨p1, t⟩⟩
    · rfl
    · rfl
    · dsimp only
      split <;> rfl

/-- The conjunctive match as a property of every pattern. -/
lemma ruleMatches_iff (content : PyStr) (patterns : List PyStr) :
    ruleMatches content patterns = true ↔
      ∀ p ∈ patterns, pyLower p <:+: pyLower content := by
  unfold ruleMatches patternMatch containsSeq
  simp [List.all_eq_true]

/-- The boolean fallback guard matches its propositional description. -/
lemma catFalsy_guard_iff (rc : Option PyStr) (title : PyStr) :
    (catFalsy rc && !title.isEmpty) = true ↔
      ((rc = none ∨ rc = some []) ∧ title ≠ []) := by
  cases rc <;> simp [catFalsy, List.isEmpty_iff]

/-- The category of `analyze` in terms of rule scan and fallback. -/
lemma analyze_category (sigs cats : List PyStr) (content title : PyStr) :
    (analyze sigs cats content title).category =
      (if catFalsy (categoryOfRules content cats) && !title.isEmpty then
        match fallbackCategory title with
        | some c => some c
        | none => categoryOfRules content cats
      else categoryOfRules content cats) := by
  unfold analyze
  by_cases hc : (catFalsy (categoryOfRules content cats) && !title.isEmpty) = true <;>
    cases hf : fallbackCategory title <;>
      simp [hc, hf]

/-- The credentials of `analyze` come from the signature fold alone. -/
lemma analyze_creds (sigs cats : List PyStr) (content title : PyStr) :
    (analyze sigs cats content title).default_credentials =
      (sigs.foldl (processSig content) emptySigResult).default_credentials := by
  unfold analyze
  by_cases hc : (catFalsy (categoryOfRules content cats) && !title.isEmpty) = true <;>
    cases hf : fallbackCategory title <;>
      simp [hc, hf]

/-- Unfolding equation for `matchingCreds` on a cons cell. -/
lemma matchingCreds_cons (content s : PyStr) (rest : List PyStr) :
    matchingCreds content (s :: rest) =
      (match splitOnChar '|' s with
      | p0 :: p1 :: _ =>
        if ruleMatches content (splitOnChar ';' p0) then
          pyStrip p1 :: matchingCreds content rest
        else matchingCreds content rest
      | _ => matchingCreds content rest) := rfl

/-- The signature fold accumulates credentials exactly by the guarded
append over the matching rules' credential texts. -/
lemma foldl_processSig_creds (content : PyStr) (sigs : List PyStr) (acc : SigResult) :
    (sigs.foldl (processSig content) acc).default_credentials =
      (matchingCreds content sigs).foldl pyDedupInsert acc.default_credentials := by
  induction sigs generalizing acc with
  | nil => rfl
  | cons s rest ih =>
    rw [List.foldl_cons, ih, matchingCreds_cons]
    unfold processSig
    rcases hs : splitOnChar '|' s with _ | ⟨p0, _ | ⟨p1, t⟩⟩
    · rfl
    · rfl
    · dsimp only
      split
      · rw [List.foldl_cons]
        rfl
      · rfl

/-- The guarded append preserves distinctness. -/
lemma pyDedupInsert_nodup (l : List PyStr) (c : PyStr) (h : l.Nodup) :
    (pyDedupInsert l c).Nodup := by
  unfold pyDedupInsert
  split
  · exact h
  · next hc =>
    rw [Bool.not_eq_true] at hc
    have hcm : c ∉ l := by simpa using hc
    simp [List.nodup_append, h, hcm]

/-- Folding the guarded append preserves distinctness. -/
lemma foldl_pyDedupInsert_nodup (cs : List PyStr) (l : List PyStr) (h : l.Nodup) :
    (cs.foldl pyDedupInsert l).Nodup := by
  induction cs generalizing l with
  | nil => exact h
  | cons c rest ih => exact ih _ (pyDedupInsert_nodup _ _ h)


/-- C5: a well-formed signature line contributes an identified-application
entry exactly when every one of its patterns is a case-insensitive
substring of the page content; the conjunctive test is vacuously true for
an empty pattern list. -/
theorem C5_conjunctive_match (content sig : PyStr) (acc : SigResult)
    (p0 p1 : PyStr) (t : List PyStr)
    (h : splitOnChar '|' sig = p0 :: p1 :: t) :
    ((processSig content acc sig).identified_applications.length
        = acc.identified_applications.length + 1 ↔
      ∀ p ∈ splitOnChar ';' p0, pyLower p <:+: pyLower content) ∧
    ruleMatches content [] = true := by
  refine ⟨?_, rfl⟩
  unfold processSig
  rw [h]
  dsimp only
  by_cases hm : ruleMatches content (splitOnChar ';' p0) = true
  · rw [if_pos hm]
    refine iff_of_true ?_ ((ruleMatches_iff _ _).mp hm)
    simp
  · rw [if_neg hm]
    have hr : ¬ ∀ p ∈ splitOnChar ';' p0, pyLower p <:+: pyLower content := by
      rw [← ruleMatches_iff]
      exact hm
    refine iff_of_false ?_ hr
    omega

/-- Witness for C5 at the spec's own example rule. -/
theorem C5_witness :
    ((processSig (str "A WordPress wp-content Page") emptySigResult
        (str "wordpress;wp-content|(WordPress) admin/admin")).identified_applications.length
        = emptySigResult.identified_applications.length + 1 ↔
      ∀ p ∈ splitOnChar ';' (str "wordpress;wp-content"),
        pyLower p <:+: pyLower (str "A WordPress wp-content Page")) ∧
    ruleMatches (str "A WordPress wp-content Page") [] = true :=
  C5_conjunctive_match (str "A WordPress wp-content Page")
    (str "wordpress;wp-content|(WordPress) admin/admin") emptySigResult
    (str "wordpress;wp-content") (str "(WordPress) admin/admin") [] (by decide)


/-- Unfolding equation for `categoryOfRules` on a cons cell. -/
lemma categoryOfRules_cons (content cat : PyStr) (rest : List PyStr) :
    categoryOfRules content (cat :: rest) =
      (match splitOnChar '|' cat with
      | p0 :: p1 :: _ =>
        if ruleMatches content (splitOnChar ';' p0) then some (pyStrip p1)
        else categoryOfRules content rest
      | _ => categoryOfRules content rest) := rfl

/-- C4 counterexample: a line with a single pipe-field survives loading
unchanged, so the loaded lists do not contain only lines with at least two
pipe-delimited fields. -/
theorem C4_counterexample :
    loadRuleLines [str "abc"] = [str "abc"] ∧
    (splitOnChar '|' (str "abc")).length < 2 := by decide

/-- C4 (amended): the field-count check happens at match time — a line
with fewer than two pipe-delimited fields contributes nothing to the
signature accumulator and is skipped by the category scan — while loading
keeps any such line that is non-blank and not a comment. -/
theorem C4_malformed_skipped_at_match_time (content : PyStr) (acc : SigResult)
    (line : PyStr) (h : (splitOnChar '|' line).length < 2) :
    processSig content acc line = acc ∧
    (∀ rest, categoryOfRules content (line :: rest) = categoryOfRules content rest) ∧
    (pyStrip line = line → line ≠ [] → startsWithHash line = false →
      loadRuleLines [line] = [line]) := by
  refine ⟨?_, ?_, ?_⟩
  · unfold processSig
    rcases hs : splitOnChar '|' line with _ | ⟨p0, _ | ⟨p1, t⟩⟩
    · rfl
    · rfl
    · rw [hs] at h
      exact absurd h (by
        simp only [List.length_cons]
        omega)
  · intro rest
    rw [categoryOfRules_cons]
    rcases hs : splitOnChar '|' line with _ | ⟨p0, _ | ⟨p1, t⟩⟩
    · rfl
    · rfl
    · rw [hs] at h
      exact absurd h (by
        simp only [List.length_cons]
        omega)
  · intro h1 h2 h3
    have hle : (pyStrip line).isEmpty = false := by
      rw [h1]
      cases line with
      | nil => exact absurd rfl h2
      | cons a l => rfl
    have hle2 : line.isEmpty = false := by
      rw [← h1]
      exact hle
    unfold loadRuleLines
    simp [List.filter, hle2, h1, h3]
/-- Witness for C4 at the concrete malformed line `abc`. -/
theorem C4_witness :
    processSig (str "x") emptySigResult (str "abc") = emptySigResult ∧
    (∀ rest, categoryOfRules (str "x") (str "abc" :: rest)
      = categoryOfRules (str "x") rest) ∧
    (pyStrip (str "abc") = str "abc" → str "abc" ≠ [] →
      startsWithHash (str "abc") = false →
      loadRuleLines [str "abc"] = [str "abc"]) :=
  C4_malformed_skipped_at_match_time (str "x") emptySigResult (str "abc") (by decide)


/-- C7 counterexample: with the category rule file line `a|` (empty
category name) and a page whose content contains `a` and whose title is
`404 Not Found`, the rule scan does assign a category (the empty string,
stopping the scan), yet the title fallback still runs and overwrites it —
so the fallback is not applied only when no category rule assigned a
category. -/
theorem C7_counterexample :
    categoryOfRules (str "xa") [str "a|"] = some (str "") ∧
    (analyze [] [str "a|"] (str "xa") (str "404 Not Found")).category
      = some (str "notfound") := by decide

/-- C7 (amended): the fallback heuristics are applied exactly when the
category left by the rule scan is absent or the empty string and the title
is non-empty, with the stated substring tests in the stated precedence. -/
theorem C7_fallback_precedence (sigs cats : List PyStr) (content title : PyStr) :
    (analyze sigs cats content title).category =
      categoryAmendedSpec cats content title := by
  rw [analyze_category]
  unfold categoryAmendedSpec
  by_cases hg : ((categoryOfRules content cats = none ∨
      categoryOfRules content cats = some []) ∧ title ≠ [])
  · rw [if_pos ((catFalsy_guard_iff _ _).mpr hg), if_pos hg]
    unfold fallbackCategory containsSeq
    by_cases h1 : (str "403 Forbidden" <:+: title ∨ str "401 Unauthorized" <:+: title)
    · rw [if_pos h1]
      rcases h1 with h1 | h1 <;> simp [h1]
    · rw [if_neg h1]
      push_neg at h1
      obtain ⟨h1a, h1b⟩ := h1
      by_cases h2 : (str "Index of /" <:+: title ∨ str "Directory Listing For /" <:+: title
          ∨ str "Directory of /" <:+: title)
      · rw [if_pos h2]
        rcases h2 with h2 | h2 | h2 <;> simp [h1a, h1b, h2]
      · rw [if_neg h2]
        push_neg at h2
        obtain ⟨h2a, h2b, h2c⟩ := h2
        by_cases h3 : (str "404 Not Found" <:+: title)
        · rw [if_pos h3]
          simp [h1a, h1b, h2a, h2b, h2c, h3]
        · rw [if_neg h3]
          simp [h1a, h1b, h2a, h2b, h2c, h3]
  · rw [if_neg hg]
    have hb : (catFalsy (categoryOfRules content cats) && !title.isEmpty) = false := by
      rw [← Bool.not_eq_true]
      intro hx
      exact hg ((catFalsy_guard_iff _ _).mp hx)
    rw [hb]
    rfl


/-- C8: the credential list of an analysis result never contains a
duplicate string, and it is exactly the fold of Python's guarded append
(`if cred_info not in creds: creds.append(cred_info)`) over the credential
texts of the matching well-formed rules in file order — i.e. each distinct
credential appears once, at its first-match position. -/
theorem C8_credentials_dedup (sigs cats : List PyStr) (content title : PyStr) :
    (analyze sigs cats content title).default_credentials.Nodup ∧
    (analyze sigs cats content title).default_credentials =
      (matchingCreds content sigs).foldl pyDedupInsert [] := by
  have h1 := analyze_creds sigs cats content title
  have h2 := foldl_processSig_creds content sigs emptySigResult
  constructor
  · rw [h1, h2]
    exact foldl_pyDedupInsert_nodup _ _ List.nodup_nil
  · rw [h1, h2]
    rfl


/-- C6: the security-header mapping always has exactly the eight fixed
names as its keys, in order; each entry's value is either the value of a
case-insensitively matching response header, or the sentinel `Not set`
when no response header matches that name. -/
theorem C6_security_headers (headers : List (PyStr × PyStr)) :
    (securityHeadersOf headers).length = 8 ∧
    (securityHeadersOf headers).map Prod.fst = securityHeaderNames ∧
    ∀ n v, (n, v) ∈ securityHeadersOf headers →
      (∃ kv, kv ∈ headers ∧ pyLower kv.1 = pyLower n ∧ v = kv.2) ∨
      (v = str "Not set" ∧ ∀ kv ∈ headers, pyLower kv.1 ≠ pyLower n) := by
  refine ⟨by simp [securityHeadersOf, securityHeaderNames], ?_, ?_⟩
  · simp only [securityHeadersOf, List.map_map]
    have hid : List.map (Prod.fst ∘ fun name => (name, lookupHeader headers name))
        securityHeaderNames = List.map id securityHeaderNames :=
      List.map_congr_left fun a _ => rfl
    rw [hid, List.map_id]
  · intro n v hmem
    rw [securityHeadersOf, List.mem_map] at hmem
    obtain ⟨name, hname, heq⟩ := hmem
    obtain ⟨rfl, rfl⟩ : n = name ∧ v = lookupHeader headers name := by
      constructor <;> { injection heq.symm }
    unfold lookupHeader
    cases hfind : headers.find? (fun kv => pyLower kv.1 == pyLower n) with
    | some kv =>
      left
      refine ⟨kv, List.mem_of_find?_eq_some hfind, ?_, rfl⟩
      have := List.find?_some hfind
      simpa using this
    | none =>
      right
      refine ⟨rfl, ?_⟩
      intro kv hkv
      have := List.find?_eq_none.mp hfind kv hkv
      simpa using this

/-- Witness for C6: a lower-cased response header is matched
case-insensitively, and the mapping's key list is the fixed eight names. -/
theorem C6_witness :
    ((∃ kv, kv ∈ headersLowerXFO ∧
        pyLower kv.1 = pyLower (str "X-Frame-Options") ∧ str "DENY" = kv.2) ∨
      (str "DENY" = str "Not set" ∧
        ∀ kv ∈ headersLowerXFO, pyLower kv.1 ≠ pyLower (str "X-Frame-Options"))) ∧
    (securityHeadersOf headersLowerXFO).map Prod.fst = securityHeaderNames :=
  ⟨(C6_security_headers headersLowerXFO).2.2 (str "X-Frame-Options") (str "DENY")
      (by decide),
    (C6_security_headers headersLowerXFO).2.1⟩


/-- C1 counterexample: when reading the page content or title raises
inside the signature engine, the failure never reaches the per-target
boundary — the scan completes with `error` unset (and an empty fingerprint
result) instead of recording the fingerprint failure in `error`. -/
theorem C1_counterexample :
    (processUrl envContentFail).error = none ∧
    (processUrl envContentFail).signatures = some emptySigResult := by decide

/-- C1 (amended): `process_url` is total over every combination of step
outcomes — it always returns one result dictionary carrying the target's
url and timestamp; `error` is unset exactly when every step that can raise
at the boundary (navigation, header fetch, screenshot, sidecar write,
close) succeeded; fields populated before a failure are retained
(headers and the signature stage's result survive any later failure, the
screenshot path survives a sidecar or close failure); and the batch always
yields exactly one result per input target. -/
theorem C1_scan_boundary (e : TargetEnv) :
    ((processUrl e).url = e.url ∧ (processUrl e).timestamp = e.timestamp) ∧
    ((processUrl e).error = none ↔
      (stepOk e.navigate ∧ stepOk e.headerFetch ∧ stepOk e.screenshotStep ∧
        stepOk e.sidecarStep ∧ stepOk e.closeStep)) ∧
    (∀ raw t m, e.navigate = Except.ok () → e.headerFetch = Except.ok (raw, t, m) →
      (processUrl e).headers = some (headersAnalyze raw t m) ∧
      (processUrl e).signatures = some (analyzeStage e.sigLines e.catLines e.pageRead)) ∧
    (∀ raw t m, e.navigate = Except.ok () → e.headerFetch = Except.ok (raw, t, m) →
      e.screenshotStep = Except.ok () →
      (processUrl e).screenshot = some e.screenshotPath) ∧
    (∀ envs : List TargetEnv, (runBatch envs).length = envs.length) := by
  obtain ⟨url, ts, sl, cl, sp, nav, hf, pr, ss, sc, cs⟩ := e
  refine ⟨?_, ?_, ?_, ?_, fun envs => by simp [runBatch]⟩ <;>
    rcases nav with m1 | u1 <;>
      rcases hf with m2 | ⟨raw, t, m⟩ <;>
        rcases ss with m3 | u3 <;>
          rcases sc with m4 | u4 <;>
            rcases cs with m5 | u5 <;>
              simp [processUrl, stepOk]

/-- Witness for C1 on a fully successful scan. -/
theorem C1_witness :
    (processUrl envAllOk).headers =
      some (headersAnalyze [(str "Server", str "nginx")] (str "Home") []) ∧
    (processUrl envAllOk).signatures =
      some (analyzeStage [] [] (Except.ok (str "hello", str "Home"))) :=
  (C1_scan_boundary envAllOk).2.2.1 [(str "Server", str "nginx")] (str "Home") []
    rfl rfl

/-- C2: the fan-out/fan-in returns exactly one result per input target, at
the same index as the target (input order preserved regardless of
completion order). -/
theorem C2_gather_order (envs : List TargetEnv) :
    (runBatch envs).length = envs.length ∧
    ∀ i : Nat, (runBatch envs)[i]? = (envs[i]?).map processUrl := by
  refine ⟨by simp [runBatch], fun i => ?_⟩
  simp [runBatch]

/-- C3: on a navigation failure the session is closed (by
`navigate_to_url`'s own handler), but when the header fetch raises after a
successful navigation, `process_url` takes its `except` branch — which
returns the error-marked result without ever invoking
`browser_handler.close()`, leaking the session. -/
theorem C3_close_skipped_after_navigation :
    processUrlClosed envNavFail = true ∧
    processUrlClosed envHeaderFail = false ∧
    (processUrl envHeaderFail).error = some (str "connection reset") := by decide


/-- C9 counterexample: aggregation does mutate its input — a result whose
screenshot file exists comes back with its `screenshot_data` field
assigned, so the results list after `generate_reports` differs from the
one passed in. -/
theorem C9_counterexample :
    processedResults fsOneShot [GatherItem.ok resultWithShot]
      ≠ [GatherItem.ok resultWithShot] := by decide

/-- C9 (amended): the only mutation aggregation performs on a result is
assigning its `screenshot_data` field when the screenshot file exists;
every other field is left unchanged, results without a screenshot path or
whose file is absent are untouched, and the processed list keeps one
element per input (an unreadable file only degrades that result's
`screenshot_data` to `None`, never failing the aggregation). -/
theorem C9_aggregation_frame (fs : FS) (r : ScanResult) :
    (mutateResult fs r).url = r.url ∧
    (mutateResult fs r).timestamp = r.timestamp ∧
    (mutateResult fs r).headers = r.headers ∧
    (mutateResult fs r).signatures = r.signatures ∧
    (mutateResult fs r).screenshot = r.screenshot ∧
    (mutateResult fs r).error = r.error ∧
    (r.screenshot = none → mutateResult fs r = r) ∧
    (∀ p, r.screenshot = some p → fs p = FileState.absent → mutateResult fs r = r) ∧
    (∀ p, r.screenshot = some p → fs p = FileState.unreadable →
      (mutateResult fs r).screenshot_data = some none) ∧
    (∀ items : List GatherItem, (processedResults fs items).length = items.length) := by
  obtain ⟨url, ts, hd, sg, shot, sd, er⟩ := r
  cases shot with
  | none =>
    refine ⟨rfl, rfl, rfl, rfl, rfl, rfl, fun _ => rfl, ?_, ?_, ?_⟩
    · intro p hp
      exact absurd hp (by simp)
    · intro p hp
      exact absurd hp (by simp)
    · intro items
      simp [processedResults]
  | some path =>
    cases hfs : fs path with
    | absent =>
      refine ⟨?_, ?_, ?_, ?_, ?_, ?_, ?_, ?_, ?_, fun items => by simp [processedResults]⟩ <;>
        simp [mutateResult, hfs]
    | unreadable =>
      refine ⟨?_, ?_, ?_, ?_, ?_, ?_, ?_, ?_, ?_, fun items => by simp [processedResults]⟩ <;>
        simp [mutateResult, hfs]
    | readable data =>
      refine ⟨?_, ?_, ?_, ?_, ?_, ?_, ?_, ?_, ?_, fun items => by simp [processedResults]⟩ <;>
        simp [mutateResult, hfs]


/-- Witness for C9: a result without a screenshot path is untouched. -/
theorem C9_witness :
    mutateResult fsOneShot resultNoShot = resultNoShot :=
  (C9_aggregation_frame fsOneShot resultNoShot).2.2.2.2.2.2.1 rfl

/-- Every element is counted once, as an error or as a report. -/
lemma countP_exc_add_ok (items : List GatherItem) :
    items.countP isExcItem + items.countP isOkItem = items.length := by
  induction items with
  | nil => rfl
  | cons it rest ih =>
    cases it <;> simp [List.countP_cons, isExcItem, isOkItem] <;> omega

/-- Loop invariant of `generate_reports`: over any suffix, the error
counter grows by the number of exception elements, the report list by the
number of non-exception elements, and the total is never touched. -/
lemma statStep_fold (fs : FS) (items : List GatherItem) :
    ∀ (n : Nat) (acc : Stats),
      ((items.enumFrom n).foldl (statStep fs) acc).errors
        = acc.errors + items.countP isExcItem ∧
      ((items.enumFrom n).foldl (statStep fs) acc).reports.length
        = acc.reports.length + items.countP isOkItem ∧
      ((items.enumFrom n).foldl (statStep fs) acc).total_urls = acc.total_urls := by
  induction items with
  | nil =>
    intro n acc
    simp
  | cons it rest ih =>
    intro n acc
    have he : (it :: rest).enumFrom n = (n, it) :: rest.enumFrom (n + 1) := rfl
    rw [he, List.foldl_cons]
    obtain ⟨h1, h2, h3⟩ := ih (n + 1) (statStep fs acc (n, it))
    cases it with
    | exc msg =>
      simp only [statStep] at h1 h2 h3
      simp only [statStep, List.countP_cons, isExcItem, isOkItem]
      refine ⟨?_, ?_, ?_⟩ <;> simp [h1, h2, h3] <;> omega
    | ok r =>
      simp only [statStep] at h1 h2 h3
      simp only [statStep, List.countP_cons, isExcItem, isOkItem]
      refine ⟨?_, ?_, ?_⟩ <;> simp [h1, h2, h3] <;> omega

/-- C10: the aggregate statistics partition the gathered elements —
`total_urls` is the input length, every `Exception` element increments
only the error counter, every other element contributes exactly one report
record (whether or not its `error` field is set), and
`total_urls = errors + len(reports)`. -/
theorem C10_stats_partition (fs : FS) (items : List GatherItem) :
    (generateStats fs items).total_urls = items.length ∧
    (generateStats fs items).errors = items.countP isExcItem ∧
    (generateStats fs items).reports.length = items.countP isOkItem ∧
    (generateStats fs items).total_urls =
      (generateStats fs items).errors + (generateStats fs items).reports.length := by
  obtain ⟨h1, h2, h3⟩ := statStep_fold fs items 0 (initStats items.length)
  have henum : items.enum = items.enumFrom 0 := rfl
  unfold generateStats
  rw [henum]
  refine ⟨?_, ?_, ?_, ?_⟩
  · rw [h3]
    rfl
  · rw [h1]
    simp [initStats]
  · rw [h2]
    simp [initStats]
  · rw [h1, h2, h3]
    simp only [initStats]
    rw [← countP_exc_add_ok items]
    simp

end Eyewitness2
